import Mathlib

/-!
Verification of the dice-pool, stress-track and character-format logic of the
Gaming repository (FATE / Blades-in-the-Dark browser character sheets).

The JavaScript sources are shallowly embedded: every pure function is
translated into an executable Lean definition keeping the source names, JS
numbers that can be `-Infinity` / `Infinity` are modelled by the `JNum` type,
and the stateful Blades dice popup is modelled as an explicit state machine.
-/

namespace Gaming

/-! ## JS number values produced by Math.max / Math.min

`Math.max()` of no arguments is `-Infinity`, `Math.min()` is `Infinity`;
over non-empty integer arrays both return an integer.  `JNum` is the subset
of JS numbers these functions can produce here. -/

inductive JNum where
  | negInf : JNum
  | posInf : JNum
  | int : Int → JNum
deriving DecidableEq, Repr

/-- JS comparison `v <= b` for a `JNum` against an integer threshold. -/
def JNum.jle : JNum → Int → Bool
  | .negInf, _ => true
  | .posInf, _ => false
  | .int n, b => n ≤ b

/-- JS `Math.max(...dice)`: `-Infinity` on the empty array. -/
def jsMax : List Int → JNum
  | [] => .negInf
  | d :: ds => .int (ds.foldl max d)

/-- JS `Math.min(...dice)`: `Infinity` on the empty array. -/
def jsMin : List Int → JNum
  | [] => .posInf
  | d :: ds => .int (ds.foldl min d)

/-- JS `dice.indexOf(v)`: first index of `v`, or `-1` when absent (in
particular when `v` is an infinity). -/
def jsIndexOf (dice : List Int) : JNum → Int
  | .int n =>
    match dice.findIdx? (fun d => d == n) with
    | some i => (i : Int)
    | none => -1
  | _ => -1

/-! ## blades-system.js : evaluateResult -/

/-- RESULT_THRESHOLDS.FAILURE (1-3 = failure). -/
def RESULT_THRESHOLDS_FAILURE : Int := 3

/-- RESULT_THRESHOLDS.MIXED (4-5 = mixed success). -/
def RESULT_THRESHOLDS_MIXED : Int := 5

/-- RESULT_THRESHOLDS.CRITICAL (2+ sixes = critical). -/
def RESULT_THRESHOLDS_CRITICAL : Nat := 2

/-- Return shape of `evaluateResult`. -/
structure EvalResult where
  dice : List Int
  selectedIndex : Int
  selectedValue : JNum
  resultName : String
  resultClass : String
  isZeroDice : Bool
deriving DecidableEq, Repr

/-- `evaluateResult(dice, isZeroDice)` from Characters/js/blades-system.js:
count the sixes, take min (worst-of-two) or max of the pool, then classify:
critical when not zero-dice and 2+ sixes, otherwise by the thresholds. -/
def evaluateResult (dice : List Int) (isZeroDice : Bool) : EvalResult :=
  let sixes := (dice.filter (fun d => d == 6)).length
  let selectedValue := if isZeroDice then jsMin dice else jsMax dice
  let selectedIndex := jsIndexOf dice selectedValue
  let pair : String × String :=
    if !isZeroDice && decide (RESULT_THRESHOLDS_CRITICAL ≤ sixes) then
      ("Critical!", "critical")
    else if selectedValue.jle RESULT_THRESHOLDS_FAILURE then
      ("Failure", "failure")
    else if selectedValue.jle RESULT_THRESHOLDS_MIXED then
      ("Mixed", "mixed")
    else
      ("Success", "success")
  { dice := dice
    selectedIndex := selectedIndex
    selectedValue := selectedValue
    resultName := pair.1
    resultClass := pair.2
    isZeroDice := isZeroDice }

/-- Classification of a selected value by the spec thresholds
(1-3 failure, 4-5 mixed, 6 success); used to compare the code with the
spec sentence. -/
def specClassify (v : Int) : String :=
  if v ≤ 3 then "Failure" else if v ≤ 5 then "Mixed" else "Success"

/-! ## fate-system.js : versions, stress boxes, ladder -/

/-- FATE_VERSIONS.CORE -/
def FATE_VERSIONS_CORE : String := "core"

/-- FATE_VERSIONS.CONDENSED -/
def FATE_VERSIONS_CONDENSED : String := "condensed"

/-- FATE_VERSIONS.ACCELERATED -/
def FATE_VERSIONS_ACCELERATED : String := "accelerated"

/-- DEFAULT_VERSION -/
def DEFAULT_VERSION : String := FATE_VERSIONS_CONDENSED

/-- `getStressBoxCount(skillRating, version)` from Characters/js/fate-system.js. -/
def getStressBoxCount (skillRating : Int) (version : String) : Nat :=
  if version = FATE_VERSIONS_CORE then
    if skillRating = 0 then 2
    else if skillRating ≤ 2 then 3
    else 4
  else
    if skillRating = 0 then 3
    else if skillRating ≤ 2 then 4
    else 6

/-- `usesIndividualStress(version)`: true only for FATE Core. -/
def usesIndividualStress (version : String) : Bool := version = FATE_VERSIONS_CORE

/-- The LADDER table of fate-system.js, keys -2..8. -/
def LADDER : List (Int × String) :=
  [(-2, "Terrible"), (-1, "Poor"), (0, "Mediocre"), (1, "Average"),
   (2, "Fair"), (3, "Good"), (4, "Great"), (5, "Superb"),
   (6, "Fantastic"), (7, "Epic"), (8, "Legendary")]

/-- `getLadderName(value)` from fate-system.js: clamp to [-2, 8], then look
the value up in LADDER (with the JS fallback string for a missing key). -/
def getLadderName (value : Int) : String :=
  if value ≤ -2 then "Terrible"
  else if 8 ≤ value then "Legendary"
  else
    match LADDER.find? (fun p => p.1 == value) with
    | some p => p.2
    | none => "+" ++ toString value

/-! ## Dice library Fate.js : interpretFateRoll -/

/-- Return shape of `interpretFateRoll`. -/
structure FateInterpretation where
  effectiveLevel : Int
  descriptor : String
deriving DecidableEq, Repr

/-- The ladder array inside `interpretFateRoll` (Fate.js of the dice
library); the last entry has min `-Infinity`, modelled as `none`. -/
def fateLadderEntries : List (Option Int × String) :=
  [(some 8, "Legendary"), (some 7, "Epic"), (some 6, "Fantastic"),
   (some 5, "Superb"), (some 4, "Great"), (some 3, "Good"), (some 2, "Fair"),
   (some 1, "Average"), (some 0, "Mediocre"), (some (-1), "Poor"),
   (some (-2), "Terrible"), (none, "Abysmal")]

/-- `effectiveLevel >= level.min`, where min `-Infinity` is `none`. -/
def jsGeMin (e : Int) : Option Int → Bool
  | none => true
  | some m => m ≤ e

/-- `interpretFateRoll(total, skillLevel)` from Fate.js: find the first
ladder entry whose min the effective level reaches. -/
def interpretFateRoll (total skillLevel : Int) : FateInterpretation :=
  let effectiveLevel := total + skillLevel
  let entry := fateLadderEntries.find? (fun p => jsGeMin effectiveLevel p.1)
  { effectiveLevel := effectiveLevel
    descriptor :=
      match entry with
      | some p => p.2
      | none => "Abysmal" }

/-! ## fate-group.js : stress track rebuild and clicks

The DOM track is modelled by its filled state: a list of booleans, one per
box, true = filled. -/

/-- Number of filled boxes of a track (the `filledCount` computed by
fate-group.js from the `filled` classes). -/
def filledCount (track : List Bool) : Nat := (track.filter (fun b => b)).length

/-- `updateStressTrack(trackElement, skillRating)` from fate-group.js as a
pure function on the filled state: rebuild `getStressBoxCount` boxes; in
individual (Core) mode box `i` keeps its own previous state
(`filledState[i]`, false beyond the old length), otherwise the first
`filledCount` boxes are refilled. -/
def updateStressTrackState (old : List Bool) (skillRating : Int)
    (fateVersion : String) : List Bool :=
  let boxCount := getStressBoxCount skillRating fateVersion
  let useIndividual := usesIndividualStress fateVersion
  (List.range boxCount).map (fun i =>
    if useIndividual then old.getD i false else decide (i < filledCount old))

/-- Loop body of `getTrackValue` from the shared module
(src/Characters/js/blades.js lines 844-851): the forEach over the boxes
with index `i` and accumulator `value`, setting `value = i + 1` at every
filled box. -/
def getTrackValueGo (track : List Bool) (i : Nat) (value : Nat) : Nat :=
  match track with
  | [] => value
  | b :: rest => getTrackValueGo rest (i + 1) (if b then i + 1 else value)

/-- `getTrackValue(container)` from the shared module: the index of the
highest filled box plus one (0 when none is filled) — not the number of
filled boxes when the filled state is not a prefix. -/
def getTrackValue (track : List Bool) : Nat := getTrackValueGo track 0 0

/-- `getFilledIndices(container)` from the shared module: the indices of
the filled boxes, in order. -/
def getFilledIndices (track : List Bool) : List Nat :=
  (List.range track.length).filter (fun i => track.getD i false)

/-- `updateStressTrack(trackElement, boxCount, filledState = null)` from
Characters/js/fate.js (lines 150-187) on the rating/variant-change path
(`updateStressTracks` passes no `filledState`): read the current state with
`getFilledIndices` (individual mode) or `getTrackValue` (sequential mode),
rebuild `boxCount` boxes, then restore with `setFilledIndices` or
`setTrackValue`. -/
def updateStressTrackSingle (old : List Bool) (skillRating : Int)
    (fateVersion : String) : List Bool :=
  let boxCount := getStressBoxCount skillRating fateVersion
  let useIndividual := usesIndividualStress fateVersion
  if useIndividual then
    let currentFilled := getFilledIndices old
    (List.range boxCount).map (fun i => currentFilled.contains i)
  else
    let count := getTrackValue old
    (List.range boxCount).map (fun i => decide (i < count))

/-- The sequential branch of `setupStressBoxClick` from fate-group.js: if
the number of filled boxes equals the clicked index plus one, unfill every
box; otherwise box `i` becomes filled exactly when `i ≤ idx` (the
`toggle('filled', i <= idx)` loop, which depends only on each index). -/
def clickStressBox (track : List Bool) (idx : Nat) : List Bool :=
  if filledCount track = idx + 1 then track.map (fun _ => false)
  else (List.range track.length).map (fun i => decide (i ≤ idx))

/-- Boolean test that the filled boxes of a track form a prefix (each box
filled only if its predecessor is). -/
def isPrefixFilled : List Bool → Bool
  | [] => true
  | [_] => true
  | a :: b :: rest => (!b || a) && isPrefixFilled (b :: rest)

/-! ## blades-system.js : showBladesDicePopup bonus-die state machine

The closure state of `showBladesDicePopup` is `originalDice`,
`startedAsZeroDice`, the `bonusDice` record (insertion-ordered, a value of
`null` marks the consumed mode flip) and `modeFlipped`.  A press of a bonus
button disables that button and calls `addBonusDie`; the freshly rolled
`rollD6()` value is a parameter of the transition. -/

/-- The three bonus buttons of the popup. -/
inductive BonusType where
  | assist
  | push
  | bargain
deriving DecidableEq, Repr, Fintype

/-- State of one Blades dice popup. -/
structure BladesPopup where
  originalDice : List Int
  startedAsZeroDice : Bool
  bonusDice : List (BonusType × Option Int)
  modeFlipped : Bool
deriving DecidableEq, Repr

/-- Popup state right after `showBladesDicePopup` rolled the pool:
`startedAsZeroDice = (numDice === 0)`, no bonus dice, mode not flipped. -/
def initPopup (numDice : Nat) (originalDice : List Int) : BladesPopup :=
  { originalDice := originalDice
    startedAsZeroDice := numDice == 0
    bonusDice := []
    modeFlipped := false }

/-- The bonus types already pressed (their buttons are disabled). -/
def BladesPopup.pressedTypes (s : BladesPopup) : List BonusType :=
  s.bonusDice.map Prod.fst

/-- `addBonusDie(type)`: when the roll started as zero-dice and the mode was
not flipped yet, only flip the mode and record `null` for this type;
otherwise record one freshly rolled die. -/
def addBonusDie (s : BladesPopup) (t : BonusType) (roll : Int) : BladesPopup :=
  if s.startedAsZeroDice && !s.modeFlipped then
    { s with modeFlipped := true, bonusDice := s.bonusDice ++ [(t, none)] }
  else
    { s with bonusDice := s.bonusDice ++ [(t, some roll)] }

/-- `getAllDice()`: the original dice followed by the non-null bonus dice. -/
def BladesPopup.getAllDice (s : BladesPopup) : List Int :=
  s.originalDice ++ s.bonusDice.filterMap Prod.snd

/-- The `isZeroDice` flag passed to `evaluateResult` on every update:
`startedAsZeroDice && !modeFlipped`. -/
def BladesPopup.isZeroDiceMode (s : BladesPopup) : Bool :=
  s.startedAsZeroDice && !s.modeFlipped

/-- Popup states reachable by pressing not-yet-pressed bonus buttons. -/
inductive PopupReachable : BladesPopup → Prop where
  | init (numDice : Nat) (originalDice : List Int) :
      PopupReachable (initPopup numDice originalDice)
  | press (s : BladesPopup) (t : BonusType) (roll : Int) :
      PopupReachable s → t ∉ s.pressedTypes →
      PopupReachable (addBonusDie s t roll)

/-! ## fate-system.js : single ⇄ group character format conversion

The documents are modelled by structures holding exactly the fields the
single-sheet serializer (`getCharacterData` in fate.js) and the group
tracker emit; maps become association lists.  `Date.now()` is passed in as
the `now` parameter. -/

/-- A stunt of the single format: `{ name, description }`. -/
structure Stunt where
  name : String
  description : String
deriving DecidableEq, Repr

/-- The consequences map of the single sheet: the five `[data-consequence]`
slots (mild, moderate, severe, mild-physical, mild-mental). -/
structure FateConsequences where
  mild : String
  moderate : String
  severe : String
  mildPhysical : String
  mildMental : String
deriving DecidableEq, Repr

/-- `altRules` of the single sheet. -/
structure AltRules where
  fateVersion : String
deriving DecidableEq, Repr

/-- A FATE single-character document as produced by `getCharacterData` in
fate.js (every field present). -/
structure FateSingleDoc where
  name : String
  highConcept : String
  trouble : String
  aspect3 : String
  aspect4 : String
  aspect5 : String
  notes : String
  fateCurrent : Int
  fateRefresh : Int
  skills : List (String × Int)
  approaches : List (String × Int)
  stunts : List Stunt
  extras : List String
  stressPhysical : List Nat
  stressMental : List Nat
  consequences : FateConsequences
  altRules : AltRules
deriving DecidableEq, Repr

/-- The three consequence slots of the group format. -/
structure GroupConsequences where
  mild : String
  moderate : String
  severe : String
deriving DecidableEq, Repr

/-- The aspects object of the group format. -/
structure GroupAspects where
  highConcept : String
  trouble : String
  aspect3 : String
  aspect4 : String
  aspect5 : String
deriving DecidableEq, Repr

/-- The `_fateExtras` passthrough of the group format. -/
structure FateExtras where
  approaches : List (String × Int)
  extras : List String
  notes : String
  fateRefresh : Int
  altRules : AltRules
  stuntDetails : List Stunt
deriving DecidableEq, Repr

/-- A FATE group-format character document. -/
structure FateGroupDoc where
  id : String
  isNpc : Bool
  name : String
  fatePoints : Int
  acted : Bool
  boosts : Int
  physicalStress : List Bool
  mentalStress : List Bool
  consequences : GroupConsequences
  aspects : GroupAspects
  skills : List (String × Int)
  stunts : List String
  _fateExtras : FateExtras
deriving DecidableEq, Repr

/-- JS `s || fallback` for strings: the empty string is falsy. -/
def jsOr (s fallback : String) : String := if s = "" then fallback else s

/-- JS `Math.max(...l)` over a list of naturals (call sites guard against
the empty list). -/
def jsMaxNat : List Nat → Nat
  | [] => 0
  | d :: ds => ds.foldl max d

/-- `convertFateToGroupFormat(fateData)` from fate-system.js.  Stress index
lists become boolean arrays of length `max(maxIndex + 1, 6)`; stunt names
are kept (non-empty only); the single-only fields go verbatim into
`_fateExtras`. -/
def convertFateToGroupFormat (now : Nat) (fateData : FateSingleDoc) :
    FateGroupDoc :=
  let physStressIndices := fateData.stressPhysical
  let mentStressIndices := fateData.stressMental
  let physMax := if 0 < physStressIndices.length then jsMaxNat physStressIndices + 1 else 0
  let mentMax := if 0 < mentStressIndices.length then jsMaxNat mentStressIndices + 1 else 0
  let physicalStress :=
    (List.range (max physMax 6)).map (fun i => physStressIndices.contains i)
  let mentalStress :=
    (List.range (max mentMax 6)).map (fun i => mentStressIndices.contains i)
  { id := "char-" ++ toString now
    isNpc := false
    name := jsOr fateData.name ""
    fatePoints := fateData.fateCurrent
    acted := false
    boosts := 0
    physicalStress := physicalStress
    mentalStress := mentalStress
    consequences :=
      { mild := jsOr fateData.consequences.mild ""
        moderate := jsOr fateData.consequences.moderate ""
        severe := jsOr fateData.consequences.severe "" }
    aspects :=
      { highConcept := jsOr fateData.highConcept ""
        trouble := jsOr fateData.trouble ""
        aspect3 := jsOr fateData.aspect3 ""
        aspect4 := jsOr fateData.aspect4 ""
        aspect5 := jsOr fateData.aspect5 "" }
    skills := fateData.skills
    stunts := (fateData.stunts.map (fun s => jsOr s.name "")).filter (fun s => !(s == ""))
    _fateExtras :=
      { approaches := fateData.approaches
        extras := fateData.extras
        notes := fateData.notes
        fateRefresh := fateData.fateRefresh
        altRules := fateData.altRules
        stuntDetails := fateData.stunts } }

/-- `convertGroupToFateFormat(groupData)` from fate-system.js.  Boolean
stress arrays become index lists; since `stuntDetails` is always an array
here and arrays are truthy in JS, the stunts are restored from the
passthrough; the `mild-physical` and `mild-mental` consequence slots are
set to the empty string. -/
def convertGroupToFateFormat (groupData : FateGroupDoc) : FateSingleDoc :=
  let extras := groupData._fateExtras
  let physicalStressIndices :=
    (List.range groupData.physicalStress.length).filter
      (fun i => groupData.physicalStress.getD i false)
  let mentalStressIndices :=
    (List.range groupData.mentalStress.length).filter
      (fun i => groupData.mentalStress.getD i false)
  { name := jsOr groupData.name ""
    highConcept := jsOr groupData.aspects.highConcept ""
    trouble := jsOr groupData.aspects.trouble ""
    aspect3 := jsOr groupData.aspects.aspect3 ""
    aspect4 := jsOr groupData.aspects.aspect4 ""
    aspect5 := jsOr groupData.aspects.aspect5 ""
    notes := jsOr extras.notes ""
    fateCurrent := groupData.fatePoints
    fateRefresh := extras.fateRefresh
    skills := groupData.skills
    approaches := extras.approaches
    stunts := extras.stuntDetails
    extras := extras.extras
    stressPhysical := physicalStressIndices
    stressMental := mentalStressIndices
    consequences :=
      { mild := jsOr groupData.consequences.mild ""
        moderate := jsOr groupData.consequences.moderate ""
        severe := jsOr groupData.consequences.severe ""
        mildPhysical := ""
        mildMental := "" }
    altRules := extras.altRules }

/-- A valid single-sheet document (physique 5, so the mild-physical
consequence slot is active) carrying a mild-physical consequence text. -/
def cexSingleDoc : FateSingleDoc :=
  { name := "Ada"
    highConcept := "Daring pilot"
    trouble := ""
    aspect3 := ""
    aspect4 := ""
    aspect5 := ""
    notes := ""
    fateCurrent := 3
    fateRefresh := 3
    skills := [("physique", 5)]
    approaches := []
    stunts := []
    extras := []
    stressPhysical := []
    stressMental := []
    consequences :=
      { mild := ""
        moderate := ""
        severe := ""
        mildPhysical := "sprained ankle"
        mildMental := "" }
    altRules := { fateVersion := "condensed" } }

/-- A fully populated single-sheet document with empty mild-physical and
mild-mental slots, used to witness the amended round trip. -/
def witnessSingleDoc : FateSingleDoc :=
  { name := "Bea"
    highConcept := "Clever sleuth"
    trouble := "Owes a favor"
    aspect3 := "Night owl"
    aspect4 := ""
    aspect5 := ""
    notes := "case notes"
    fateCurrent := 2
    fateRefresh := 3
    skills := [("physique", 1), ("will", 2)]
    approaches := [("careful", 3)]
    stunts := [{ name := "Backup plan", description := "Once per session, retcon." }]
    extras := ["lockpicks"]
    stressPhysical := [0, 2]
    stressMental := [1]
    consequences :=
      { mild := "bruised"
        moderate := ""
        severe := ""
        mildPhysical := ""
        mildMental := "" }
    altRules := { fateVersion := "core" } }

/-! ## shared module : validateImportData

The shared character-sheet utilities (@module shared) are staged in
src/Characters/js/blades.js after the module separator; `validateImportData`
is at lines 734-750 there. -/

/-- A JSON value as passed to the import validator. -/
inductive JsonValue where
  | null : JsonValue
  | bool : Bool → JsonValue
  | num : Int → JsonValue
  | str : String → JsonValue
  | arr : List JsonValue → JsonValue
  | obj : List (String × JsonValue) → JsonValue

/-- Result shape `{ valid, error }` of the import validator. -/
structure ValidationResult where
  valid : Bool
  error : Option String
deriving DecidableEq, Repr

/-- `validateImportData(data, requiredFields)` of the shared module
(src/Characters/js/blades.js lines 734-750): `!data || typeof data !==
'object'` (null, booleans, numbers, strings) gives "Invalid data format";
`Array.isArray(data)` gives "Expected object, got array"; then the first
required field not `in data` gives "Missing required field: f"; otherwise
`{ valid: true }` (the absent `error` key is `none`). -/
def validateImportData (data : JsonValue) (requiredFields : List String) :
    ValidationResult :=
  match data with
  | .null => { valid := false, error := some "Invalid data format" }
  | .bool _ => { valid := false, error := some "Invalid data format" }
  | .num _ => { valid := false, error := some "Invalid data format" }
  | .str _ => { valid := false, error := some "Invalid data format" }
  | .arr _ => { valid := false, error := some "Expected object, got array" }
  | .obj fields =>
    match requiredFields.find? (fun f => !((fields.map Prod.fst).contains f)) with
    | some f => { valid := false, error := some ("Missing required field: " ++ f) }
    | none => { valid := true, error := none }

/-- A single-sheet document with physical stress at indices 0 and 2 and no
mental stress, used to witness the exported stress arrays. -/
def c10SingleDoc : FateSingleDoc :=
  { name := "Cam"
    highConcept := ""
    trouble := ""
    aspect3 := ""
    aspect4 := ""
    aspect5 := ""
    notes := ""
    fateCurrent := 3
    fateRefresh := 3
    skills := []
    approaches := []
    stunts := []
    extras := []
    stressPhysical := [0, 2]
    stressMental := []
    consequences :=
      { mild := ""
        moderate := ""
        severe := ""
        mildPhysical := ""
        mildMental := "" }
    altRules := { fateVersion := "condensed" } }

/-! ## Theorems -/

/-! ### Fold lemmas for min / max over a list -/

theorem foldl_min_mem {α : Type} [LinearOrder α] (ds : List α) (d : α) :
    ds.foldl min d = d ∨ ds.foldl min d ∈ ds := by
  induction ds generalizing d with
  | nil => left; rfl
  | cons a as ih =>
    rcases ih (min d a) with h | h
    · rcases min_choice d a with h2 | h2
      · left; rw [List.foldl_cons, h, h2]
      · right; rw [List.foldl_cons, h, h2]; exact List.mem_cons_self a as
    · right; exact List.mem_cons_of_mem a h

theorem foldl_min_le {α : Type} [LinearOrder α] (ds : List α) (d : α) :
    ds.foldl min d ≤ d ∧ ∀ x ∈ ds, ds.foldl min d ≤ x := by
  induction ds generalizing d with
  | nil => exact ⟨le_refl d, by intro x hx; cases hx⟩
  | cons a as ih =>
    have h := ih (min d a)
    refine ⟨le_trans h.1 (min_le_left d a), ?_⟩
    intro x hx
    rcases List.mem_cons.mp hx with rfl | hx
    · exact le_trans h.1 (min_le_right d x)
    · exact h.2 x hx

theorem foldl_max_mem {α : Type} [LinearOrder α] (ds : List α) (d : α) :
    ds.foldl max d = d ∨ ds.foldl max d ∈ ds := by
  induction ds generalizing d with
  | nil => left; rfl
  | cons a as ih =>
    rcases ih (max d a) with h | h
    · rcases max_choice d a with h2 | h2
      · left; rw [List.foldl_cons, h, h2]
      · right; rw [List.foldl_cons, h, h2]; exact List.mem_cons_self a as
    · right; exact List.mem_cons_of_mem a h

theorem foldl_max_ge {α : Type} [LinearOrder α] (ds : List α) (d : α) :
    d ≤ ds.foldl max d ∧ ∀ x ∈ ds, x ≤ ds.foldl max d := by
  induction ds generalizing d with
  | nil => exact ⟨le_refl d, by intro x hx; cases hx⟩
  | cons a as ih =>
    have h := ih (max d a)
    refine ⟨le_trans (le_max_left d a) h.1, ?_⟩
    intro x hx
    rcases List.mem_cons.mp hx with rfl | hx
    · exact le_trans (le_max_right d x) h.1
    · exact h.2 x hx

theorem jsMin_spec (dice : List Int) (hne : dice ≠ []) :
    ∃ m, jsMin dice = .int m ∧ m ∈ dice ∧ ∀ x ∈ dice, m ≤ x := by
  match dice, hne with
  | d :: ds, _ =>
    refine ⟨ds.foldl min d, rfl, ?_, ?_⟩
    · rcases foldl_min_mem ds d with h | h
      · rw [h]; exact List.mem_cons_self d ds
      · exact List.mem_cons_of_mem d h
    · intro x hx
      rcases List.mem_cons.mp hx with rfl | hx
      · exact (foldl_min_le ds x).1
      · exact (foldl_min_le ds d).2 x hx

theorem jsMax_spec (dice : List Int) (hne : dice ≠ []) :
    ∃ m, jsMax dice = .int m ∧ m ∈ dice ∧ ∀ x ∈ dice, x ≤ m := by
  match dice, hne with
  | d :: ds, _ =>
    refine ⟨ds.foldl max d, rfl, ?_, ?_⟩
    · rcases foldl_max_mem ds d with h | h
      · rw [h]; exact List.mem_cons_self d ds
      · exact List.mem_cons_of_mem d h
    · intro x hx
      rcases List.mem_cons.mp hx with rfl | hx
      · exact (foldl_max_ge ds x).1
      · exact (foldl_max_ge ds d).2 x hx

/-- C2: for every non-empty pool of die values in 1..6, `evaluateResult`
selects the minimum when `isWorstOfTwo` (isZeroDice) is true and then never
yields Critical, classifying the minimum by the 1-3/4-5/6 thresholds;
otherwise it selects the maximum, yields Critical exactly when the pool has
two or more sixes, and otherwise classifies the maximum by the thresholds. -/
theorem evaluateResult_select_classify (dice : List Int) (hne : dice ≠ [])
    (hv : ∀ d ∈ dice, 1 ≤ d ∧ d ≤ 6) :
    (∃ m, (evaluateResult dice true).selectedValue = .int m ∧ m ∈ dice ∧
        (∀ x ∈ dice, m ≤ x) ∧
        (evaluateResult dice true).resultName = specClassify m) ∧
    (evaluateResult dice true).resultName ≠ "Critical!" ∧
    (∃ M, (evaluateResult dice false).selectedValue = .int M ∧ M ∈ dice ∧
        (∀ x ∈ dice, x ≤ M) ∧
        ((evaluateResult dice false).resultName = "Critical!" ↔
          2 ≤ (dice.filter (fun d => d == 6)).length) ∧
        ((dice.filter (fun d => d == 6)).length < 2 →
          (evaluateResult dice false).resultName = specClassify M)) := by
  obtain ⟨m, hm, hmmem, hmle⟩ := jsMin_spec dice hne
  obtain ⟨M, hM, hMmem, hMge⟩ := jsMax_spec dice hne
  refine ⟨⟨m, ?_, hmmem, hmle, ?_⟩, ?_, M, ?_, hMmem, hMge, ?_, ?_⟩
  · simp [evaluateResult, hm]
  · simp [evaluateResult, hm, JNum.jle, specClassify,
      RESULT_THRESHOLDS_FAILURE, RESULT_THRESHOLDS_MIXED]
    split_ifs <;> rfl
  · simp only [evaluateResult, hm, JNum.jle, Bool.not_true, Bool.false_and,
      Bool.false_eq_true, if_false, decide_eq_true_eq]
    split_ifs <;> simp
  · simp [evaluateResult, hM]
  · by_cases h2 : 2 ≤ (dice.filter (fun d => d == 6)).length
    · simp [evaluateResult, RESULT_THRESHOLDS_CRITICAL, h2]
    · simp only [evaluateResult, hM, JNum.jle, RESULT_THRESHOLDS_CRITICAL,
        RESULT_THRESHOLDS_FAILURE, RESULT_THRESHOLDS_MIXED, h2, Bool.not_false,
        Bool.true_and, decide_eq_true_eq, if_false]
      constructor
      · intro hname
        split_ifs at hname <;> simp_all
      · intro hfalse
        exact hfalse.elim
  · intro h2
    have h2f : ¬ (2 ≤ (dice.filter (fun d => d == 6)).length) := by omega
    simp [evaluateResult, hM, JNum.jle, RESULT_THRESHOLDS_CRITICAL,
      RESULT_THRESHOLDS_FAILURE, RESULT_THRESHOLDS_MIXED, specClassify, h2f]
    split_ifs <;> rfl

/-- Witness for C2 at the concrete pool [6, 2]. -/
theorem evaluateResult_select_classify_witness :
    (([6, 2] : List Int) ≠ [] ∧ (∀ d ∈ ([6, 2] : List Int), 1 ≤ d ∧ d ≤ 6)) ∧
    ((∃ m, (evaluateResult [6, 2] true).selectedValue = .int m ∧
        m ∈ ([6, 2] : List Int) ∧ (∀ x ∈ ([6, 2] : List Int), m ≤ x) ∧
        (evaluateResult [6, 2] true).resultName = specClassify m) ∧
      (evaluateResult [6, 2] true).resultName ≠ "Critical!" ∧
      (∃ M, (evaluateResult [6, 2] false).selectedValue = .int M ∧
        M ∈ ([6, 2] : List Int) ∧ (∀ x ∈ ([6, 2] : List Int), x ≤ M) ∧
        ((evaluateResult [6, 2] false).resultName = "Critical!" ↔
          2 ≤ (([6, 2] : List Int).filter (fun d => d == 6)).length) ∧
        ((([6, 2] : List Int).filter (fun d => d == 6)).length < 2 →
          (evaluateResult [6, 2] false).resultName = specClassify M))) :=
  ⟨⟨by decide, by decide⟩,
    evaluateResult_select_classify [6, 2] (by decide) (by decide)⟩

/-- C9: `evaluateResult` is total on the empty pool: with isZeroDice = false
it returns selectedValue -Infinity (Math.max of no arguments), selectedIndex
-1, and outcome Failure, since -Infinity falls into the failure branch. -/
theorem evaluateResult_empty_total :
    evaluateResult [] false =
      { dice := [], selectedIndex := -1, selectedValue := .negInf,
        resultName := "Failure", resultClass := "failure",
        isZeroDice := false } := by
  rfl

/-- C4: the stress-box capacity table: core gives 2/3/4 for ratings 0, 1-2,
3+; condensed gives 3/4/6; accelerated matches condensed for every rating. -/
theorem getStressBoxCount_table (r : Int) :
    (r = 0 → getStressBoxCount r "core" = 2) ∧
    (1 ≤ r → r ≤ 2 → getStressBoxCount r "core" = 3) ∧
    (3 ≤ r → getStressBoxCount r "core" = 4) ∧
    (r = 0 → getStressBoxCount r "condensed" = 3) ∧
    (1 ≤ r → r ≤ 2 → getStressBoxCount r "condensed" = 4) ∧
    (3 ≤ r → getStressBoxCount r "condensed" = 6) ∧
    getStressBoxCount r "accelerated" = getStressBoxCount r "condensed" := by
  refine ⟨?_, ?_, ?_, ?_, ?_, ?_, ?_⟩ <;>
    · intros
      simp only [getStressBoxCount, FATE_VERSIONS_CORE]
      split_ifs <;> simp_all <;> omega

/-- Witness for C4 at concrete ratings 0, 1, 3. -/
theorem getStressBoxCount_table_witness :
    getStressBoxCount 0 "core" = 2 ∧ getStressBoxCount 1 "core" = 3 ∧
    getStressBoxCount 3 "core" = 4 ∧ getStressBoxCount 0 "condensed" = 3 ∧
    getStressBoxCount 1 "condensed" = 4 ∧ getStressBoxCount 3 "condensed" = 6 ∧
    getStressBoxCount 3 "accelerated" = getStressBoxCount 3 "condensed" :=
  ⟨(getStressBoxCount_table 0).1 rfl,
   (getStressBoxCount_table 1).2.1 (by decide) (by decide),
   (getStressBoxCount_table 3).2.2.1 (by decide),
   (getStressBoxCount_table 0).2.2.2.1 rfl,
   (getStressBoxCount_table 1).2.2.2.2.1 (by decide) (by decide),
   (getStressBoxCount_table 3).2.2.2.2.2.1 (by decide),
   (getStressBoxCount_table 3).2.2.2.2.2.2⟩

/-- C7 counterexample: `interpretFateRoll` does not clamp totals below -2 to
Terrible; at effective level -3 the descriptor is Abysmal. -/
theorem interpretFateRoll_no_low_clamp :
    (interpretFateRoll (-3) 0).descriptor = "Abysmal" ∧
    (interpretFateRoll (-3) 0).descriptor ≠ "Terrible" := by
  constructor <;> decide

/-- C7 amended: `getLadderName` clamps totals to [-2, 8] at both ends (and
maps 0 to Mediocre); `interpretFateRoll` clamps at the top (every effective
level at or above 8 is Legendary) and maps -2 to Terrible, but every
effective level below -2 yields Abysmal rather than Terrible. -/
theorem ladder_clamp_amended (v : Int) :
    (v ≤ -2 → getLadderName v = "Terrible") ∧
    (8 ≤ v → getLadderName v = "Legendary") ∧
    getLadderName 0 = "Mediocre" ∧
    (∀ s, 8 ≤ v + s → (interpretFateRoll v s).descriptor = "Legendary") ∧
    (∀ s, v + s = -2 → (interpretFateRoll v s).descriptor = "Terrible") ∧
    (∀ s, v + s < -2 → (interpretFateRoll v s).descriptor = "Abysmal") := by
  refine ⟨?_, ?_, by decide, ?_, ?_, ?_⟩
  · intro h
    simp [getLadderName, h]
  · intro h
    have h2 : ¬ (v ≤ -2) := by omega
    simp [getLadderName, h, h2]
  · intro s h
    simp [interpretFateRoll, fateLadderEntries, jsGeMin, h]
  · intro s h
    simp [interpretFateRoll, fateLadderEntries, jsGeMin, h]
  · intro s h
    have h8 : ¬ ((8 : Int) ≤ v + s) := by omega
    have h7 : ¬ ((7 : Int) ≤ v + s) := by omega
    have h6 : ¬ ((6 : Int) ≤ v + s) := by omega
    have h5 : ¬ ((5 : Int) ≤ v + s) := by omega
    have h4 : ¬ ((4 : Int) ≤ v + s) := by omega
    have h3 : ¬ ((3 : Int) ≤ v + s) := by omega
    have h2 : ¬ ((2 : Int) ≤ v + s) := by omega
    have h1 : ¬ ((1 : Int) ≤ v + s) := by omega
    have h0 : ¬ ((0 : Int) ≤ v + s) := by omega
    have hm1 : ¬ ((-1 : Int) ≤ v + s) := by omega
    have hm2 : ¬ ((-2 : Int) ≤ v + s) := by omega
    simp [interpretFateRoll, fateLadderEntries, jsGeMin,
      h8, h7, h6, h5, h4, h3, h2, h1, h0, hm1, hm2]

/-- Witness for C7 at concrete totals -5, 9, and skill 0 / 1 combinations. -/
theorem ladder_clamp_amended_witness :
    getLadderName (-5) = "Terrible" ∧ getLadderName 9 = "Legendary" ∧
    getLadderName 0 = "Mediocre" ∧
    (interpretFateRoll 9 0).descriptor = "Legendary" ∧
    (interpretFateRoll (-3) 1).descriptor = "Terrible" ∧
    (interpretFateRoll (-4) 1).descriptor = "Abysmal" :=
  ⟨(ladder_clamp_amended (-5)).1 (by decide),
   (ladder_clamp_amended 9).2.1 (by decide),
   (ladder_clamp_amended 0).2.2.1,
   (ladder_clamp_amended 9).2.2.2.1 0 (by decide),
   (ladder_clamp_amended (-3)).2.2.2.2.1 1 (by decide),
   (ladder_clamp_amended (-4)).2.2.2.2.2 1 (by decide)⟩

theorem countTrue_range_lt (c n : Nat) :
    filledCount ((List.range n).map (fun i => decide (i < c))) = min c n := by
  induction n with
  | zero => simp [filledCount]
  | succ n ih =>
    rw [List.range_succ]
    by_cases h : n < c <;>
      simp [filledCount, List.filter_append, h] at ih ⊢ <;> omega

theorem getD_map_range (n : Nat) (f : Nat → Bool) (i : Nat) :
    ((List.range n).map f).getD i false = if i < n then f i else false := by
  by_cases h : i < n
  · rw [List.getD_eq_getElem]
    · simp [h]
    · simpa using h
  · rw [List.getD_eq_default]
    · simp [h]
    · simpa using Nat.le_of_not_lt h

theorem getD_map_const_false (t : List Bool) (i : Nat) :
    (t.map (fun _ => false)).getD i false = false := by
  by_cases h : i < t.length
  · rw [List.getD_eq_getElem]
    · simp
    · simpa using h
  · rw [List.getD_eq_default]
    simpa using Nat.le_of_not_lt h

theorem clickStressBox_length (t : List Bool) (k : Nat) :
    (clickStressBox t k).length = t.length := by
  unfold clickStressBox
  split <;> simp

theorem countTrue_fill (n k : Nat) :
    filledCount ((List.range n).map (fun i => decide (i ≤ k))) = min (k + 1) n := by
  have he : (fun i => decide (i ≤ k)) = fun i => decide (i < k + 1) := by
    funext i
    simp [Nat.lt_succ_iff]
  rw [he, countTrue_range_lt]

theorem filledCount_cons (b : Bool) (rest : List Bool) :
    filledCount (b :: rest) = (if b then 1 else 0) + filledCount rest := by
  cases b <;> simp [filledCount, List.filter_cons] <;> omega

theorem getTrackValueGo_spec (t : List Bool) : ∀ (n v : Nat),
    getTrackValueGo t n v =
      if filledCount t = 0 then v else getTrackValueGo t 0 0 + n := by
  induction t with
  | nil =>
    intro n v
    simp [getTrackValueGo, filledCount]
  | cons b rest ih =>
    intro n v
    simp only [getTrackValueGo, Nat.zero_add]
    rw [ih (n + 1) (if b then n + 1 else v), ih 1 (if b then 1 else 0),
      filledCount_cons]
    split_ifs <;> omega

theorem isPrefixFilled_cons (b : Bool) (rest : List Bool)
    (h : isPrefixFilled (b :: rest) = true) :
    isPrefixFilled rest = true ∧ (rest.getD 0 false = true → b = true) := by
  cases rest with
  | nil =>
    exact ⟨rfl, by intro h2; cases h2⟩
  | cons c r2 =>
    simp only [isPrefixFilled, Bool.and_eq_true, Bool.or_eq_true,
      Bool.not_eq_eq_eq_not, Bool.not_true] at h
    refine ⟨h.2, ?_⟩
    intro hc
    simp only [List.getD_cons_zero] at hc
    rcases h.1 with h1 | h1
    · rw [hc] at h1; cases h1
    · exact h1

theorem prefix_head_filled (t : List Bool) (hp : isPrefixFilled t = true)
    (hf : filledCount t ≠ 0) : t.getD 0 false = true := by
  induction t with
  | nil => simp [filledCount] at hf
  | cons b rest ih =>
    cases b with
    | true => simp
    | false =>
      have hd := isPrefixFilled_cons false rest hp
      have hfr : filledCount rest ≠ 0 := by
        simpa [filledCount, List.filter_cons] using hf
      exact absurd (hd.2 (ih hd.1 hfr)) (by simp)

theorem getTrackValue_of_prefix (t : List Bool) (hp : isPrefixFilled t = true) :
    getTrackValue t = filledCount t := by
  induction t with
  | nil => rfl
  | cons b rest ih =>
    have hd := isPrefixFilled_cons b rest hp
    have hrest : getTrackValue rest = filledCount rest := ih hd.1
    show getTrackValueGo (b :: rest) 0 0 = _
    simp only [getTrackValueGo, Nat.zero_add]
    rw [getTrackValueGo_spec rest 1 (if b then 1 else 0), filledCount_cons]
    have hgo : getTrackValueGo rest 0 0 = filledCount rest := hrest
    by_cases hf : filledCount rest = 0
    · split_ifs <;> omega
    · have hb : b = true := hd.2 (prefix_head_filled rest hd.1 hf)
      subst hb
      split_ifs <;> first | omega | simp_all

theorem mem_getFilledIndices (t : List Bool) (i : Nat) :
    i ∈ getFilledIndices t ↔ t.getD i false = true := by
  simp only [getFilledIndices, List.mem_filter, List.mem_range]
  constructor
  · rintro ⟨_, h⟩
    exact h
  · intro h
    refine ⟨?_, h⟩
    by_contra hlt
    have hd : t.getD i false = false := by
      rw [List.getD_eq_default]
      exact Nat.le_of_not_lt hlt
    rw [hd] at h
    cases h

/-- C5 counterexample: the single sheet's rebuild (fate.js) does not
preserve the filled count: a core-mode state with only box 1 filled,
rebuilt after switching the variant to condensed, ends with 2 boxes filled
(getTrackValue = highest filled index + 1 = 2) instead of the previous
count 1 clamped. -/
theorem updateStressTrackSingle_count_cex :
    filledCount [false, true] = 1 ∧
    filledCount (updateStressTrackSingle [false, true] 0 FATE_VERSIONS_CONDENSED) = 2 ∧
    filledCount (updateStressTrackSingle [false, true] 0 FATE_VERSIONS_CONDENSED) ≠
      min (filledCount [false, true])
        (getStressBoxCount 0 FATE_VERSIONS_CONDENSED) := by
  refine ⟨by decide, by decide, by decide⟩

/-- C5 amended: the group tracker's rebuild (fate-group.js) behaves as
claimed: a Sequential (condensed / accelerated) track ends with the
previous filled count clamped to the new capacity and an Independent (core)
track keeps exactly the previously-filled indices below the new capacity.
The single sheet's rebuild (fate.js) preserves the surviving indices in
core mode too, but in sequential mode it preserves
min(getTrackValue, capacity) where getTrackValue is the highest filled
index plus one — equal to the claimed clamped count whenever the old filled
boxes form a prefix (always the case when the track was already
sequential), but larger than it for non-prefix states left over from core
mode. -/
theorem updateStressTrack_resize (old : List Bool) (r : Int) (version : String) :
    ((version = FATE_VERSIONS_CONDENSED ∨ version = FATE_VERSIONS_ACCELERATED) →
      (updateStressTrackState old r version).length = getStressBoxCount r version ∧
      filledCount (updateStressTrackState old r version) =
        min (filledCount old) (getStressBoxCount r version)) ∧
    (version = FATE_VERSIONS_CORE →
      (updateStressTrackState old r version).length = getStressBoxCount r version ∧
      (∀ i, (updateStressTrackState old r version).getD i false = true ↔
        (i < getStressBoxCount r version ∧ old.getD i false = true))) ∧
    ((version = FATE_VERSIONS_CONDENSED ∨ version = FATE_VERSIONS_ACCELERATED) →
      filledCount (updateStressTrackSingle old r version) =
        min (getTrackValue old) (getStressBoxCount r version) ∧
      (isPrefixFilled old = true →
        filledCount (updateStressTrackSingle old r version) =
          min (filledCount old) (getStressBoxCount r version))) ∧
    (version = FATE_VERSIONS_CORE →
      (updateStressTrackSingle old r version).length = getStressBoxCount r version ∧
      (∀ i, (updateStressTrackSingle old r version).getD i false = true ↔
        (i < getStressBoxCount r version ∧ old.getD i false = true))) := by
  refine ⟨?_, ?_, ?_, ?_⟩
  · intro hv
    have hnotcore : usesIndividualStress version = false := by
      rcases hv with rfl | rfl <;> decide
    constructor
    · simp [updateStressTrackState]
    · simp only [updateStressTrackState, hnotcore, Bool.false_eq_true, if_false]
      exact countTrue_range_lt (filledCount old) (getStressBoxCount r version)
  · intro hv
    have hcore : usesIndividualStress version = true := by
      subst hv; decide
    constructor
    · simp [updateStressTrackState]
    · intro i
      simp only [updateStressTrackState, hcore, if_true]
      rw [getD_map_range]
      by_cases h : i < getStressBoxCount r version <;> simp [h]
  · intro hv
    have hnotcore : usesIndividualStress version = false := by
      rcases hv with rfl | rfl <;> decide
    have hseq : filledCount (updateStressTrackSingle old r version) =
        min (getTrackValue old) (getStressBoxCount r version) := by
      simp only [updateStressTrackSingle, hnotcore, Bool.false_eq_true, if_false]
      exact countTrue_range_lt (getTrackValue old) (getStressBoxCount r version)
    refine ⟨hseq, ?_⟩
    intro hpre
    rw [hseq, getTrackValue_of_prefix old hpre]
  · intro hv
    have hcore : usesIndividualStress version = true := by
      subst hv; decide
    constructor
    · simp only [updateStressTrackSingle, hcore, if_true]
      simp
    · intro i
      simp only [updateStressTrackSingle, hcore, if_true]
      rw [getD_map_range]
      by_cases h : i < getStressBoxCount r version <;>
        simp [h, mem_getFilledIndices]

/-- Witness for C5: a condensed prefix track of 4 boxes with 3 filled
shrinking to 3 boxes keeps 3 filled under both implementations; core
tracks keep exactly the surviving indices under both implementations. -/
theorem updateStressTrack_resize_witness :
    (updateStressTrackState [true, true, true, false] 0 "condensed").length =
        getStressBoxCount 0 "condensed" ∧
    filledCount (updateStressTrackState [true, true, true, false] 0 "condensed") =
      min (filledCount [true, true, true, false]) (getStressBoxCount 0 "condensed") ∧
    ((updateStressTrackState [false, true, true] 0 "core").getD 1 false = true ↔
      (1 < getStressBoxCount 0 "core" ∧
        ([false, true, true] : List Bool).getD 1 false = true)) ∧
    filledCount (updateStressTrackSingle [true, true, true, false] 0 "condensed") =
      min (filledCount [true, true, true, false]) (getStressBoxCount 0 "condensed") ∧
    ((updateStressTrackSingle [false, true, true] 0 "core").getD 1 false = true ↔
      (1 < getStressBoxCount 0 "core" ∧
        ([false, true, true] : List Bool).getD 1 false = true)) :=
  ⟨((updateStressTrack_resize [true, true, true, false] 0 "condensed").1
      (Or.inl rfl)).1,
   ((updateStressTrack_resize [true, true, true, false] 0 "condensed").1
      (Or.inl rfl)).2,
   ((updateStressTrack_resize [false, true, true] 0 "core").2.1 rfl).2 1,
   ((updateStressTrack_resize [true, true, true, false] 0 "condensed").2.2.1
      (Or.inl rfl)).2 (by decide),
   ((updateStressTrack_resize [false, true, true] 0 "core").2.2.2 rfl).2 1⟩

/-- C6 counterexample: on the 2-box prefix track [true, false] (one box
filled), clicking box 0 twice does not leave the track all-empty: the first
click clears it and the second refills box 0. -/
theorem clickStressBox_double_click_cex :
    clickStressBox (clickStressBox [true, false] 0) 0 = [true, false] ∧
    clickStressBox (clickStressBox [true, false] 0) 0 ≠ [false, false] := by
  constructor <;> decide

/-- C6 amended: the click handler clears everything when the filled count
equals the clicked index plus one and otherwise fills exactly boxes 0..k;
consequently clicking k twice empties the track provided the track did not
already have exactly k+1 filled boxes, and clicking k then j < k always
leaves exactly j+1 boxes filled. -/
theorem clickStressBox_amended (track : List Bool) (k j : Nat)
    (hk : k < track.length) (hpre : isPrefixFilled track = true) :
    (filledCount track = k + 1 →
      ∀ i, (clickStressBox track k).getD i false = false) ∧
    (filledCount track ≠ k + 1 →
      ∀ i, ((clickStressBox track k).getD i false = true ↔
        (i < track.length ∧ i ≤ k))) ∧
    (filledCount track ≠ k + 1 →
      ∀ i, (clickStressBox (clickStressBox track k) k).getD i false = false) ∧
    (j < k → filledCount (clickStressBox (clickStressBox track k) j) = j + 1) := by
  have hfill : ∀ (t : List Bool) (m : Nat), filledCount t ≠ m + 1 →
      clickStressBox t m = (List.range t.length).map (fun i => decide (i ≤ m)) := by
    intro t m hm
    unfold clickStressBox
    rw [if_neg hm]
  have hclear : ∀ (t : List Bool) (m : Nat), filledCount t = m + 1 →
      clickStressBox t m = t.map (fun _ => false) := by
    intro t m hm
    unfold clickStressBox
    rw [if_pos hm]
  refine ⟨?_, ?_, ?_, ?_⟩
  · intro hc i
    rw [hclear track k hc]
    exact getD_map_const_false track i
  · intro hc i
    rw [hfill track k hc, getD_map_range]
    by_cases h : i < track.length <;> simp [h]
  · intro hc i
    have h2 : filledCount (clickStressBox track k) = k + 1 := by
      rw [hfill track k hc, countTrue_fill]
      omega
    rw [hclear _ _ h2]
    exact getD_map_const_false _ i
  · intro hj
    by_cases hc : filledCount track = k + 1
    · have h2 : filledCount (clickStressBox track k) = 0 := by
        rw [hclear track k hc]
        simp [filledCount]
      have h3 : filledCount (clickStressBox track k) ≠ j + 1 := by omega
      rw [hfill _ _ h3, countTrue_fill, clickStressBox_length]
      omega
    · have h2 : filledCount (clickStressBox track k) = k + 1 := by
        rw [hfill track k hc, countTrue_fill]
        omega
      have h3 : filledCount (clickStressBox track k) ≠ j + 1 := by omega
      rw [hfill _ _ h3, countTrue_fill, clickStressBox_length]
      omega

/-- Witness for C6 at the 3-box track [true, true, false], k = 2, j = 0. -/
theorem clickStressBox_amended_witness :
    (2 < ([true, true, false] : List Bool).length ∧
      isPrefixFilled [true, true, false] = true ∧
      filledCount [true, true, false] ≠ 2 + 1) ∧
    (∀ i, (clickStressBox (clickStressBox [true, true, false] 2) 2).getD i false = false) ∧
    (0 < 2 → filledCount (clickStressBox (clickStressBox [true, true, false] 2) 0) = 0 + 1) :=
  ⟨⟨by decide, by decide, by decide⟩,
   (clickStressBox_amended [true, true, false] 2 0 (by decide) (by decide)).2.2.1
     (by decide),
   (clickStressBox_amended [true, true, false] 2 0 (by decide) (by decide)).2.2.2⟩

theorem nodup_bonusType_length_le (l : List BonusType) (h : l.Nodup) :
    l.length ≤ 3 := by
  have hcard : Fintype.card BonusType = 3 := rfl
  have := h.length_le_card
  omega

/-- C3: in the Blades bonus-die state machine, a press on a worst-of-two
roll with no flip consumed yet leaves the dice pool and original dice
unchanged and only flips the evaluation mode; any other press appends
exactly the freshly rolled die; and since each bonus type can be pressed at
most once, every reachable state has at most 3 added dice. -/
theorem addBonusDie_state_machine :
    (∀ (s : BladesPopup) (t : BonusType) (roll : Int),
      s.startedAsZeroDice = true → s.modeFlipped = false →
        (addBonusDie s t roll).getAllDice = s.getAllDice ∧
        (addBonusDie s t roll).originalDice = s.originalDice ∧
        (addBonusDie s t roll).isZeroDiceMode = false ∧
        (addBonusDie s t roll).modeFlipped = true) ∧
    (∀ (s : BladesPopup) (t : BonusType) (roll : Int),
      (s.startedAsZeroDice = false ∨ s.modeFlipped = true) →
        (addBonusDie s t roll).getAllDice = s.getAllDice ++ [roll] ∧
        (addBonusDie s t roll).originalDice = s.originalDice) ∧
    (∀ s : BladesPopup, PopupReachable s →
      s.pressedTypes.Nodup ∧
      s.getAllDice.length ≤ s.originalDice.length + 3) := by
  refine ⟨?_, ?_, ?_⟩
  · intro s t roll h1 h2
    simp [addBonusDie, h1, h2, BladesPopup.getAllDice,
      BladesPopup.isZeroDiceMode, List.filterMap_append]
  · intro s t roll h
    rcases h with h | h <;>
      simp [addBonusDie, h, BladesPopup.getAllDice, List.filterMap_append]
  · intro s hs
    induction hs with
    | init numDice originalDice =>
      constructor
      · simp [initPopup, BladesPopup.pressedTypes]
      · simp [initPopup, BladesPopup.getAllDice]
    | press s t roll hr hnot ih =>
      have hpressed : (addBonusDie s t roll).pressedTypes =
          s.pressedTypes ++ [t] := by
        unfold addBonusDie
        split <;> simp [BladesPopup.pressedTypes]
      have hnodup : (addBonusDie s t roll).pressedTypes.Nodup := by
        rw [hpressed]
        simp [List.nodup_append, ih.1, hnot]
      refine ⟨hnodup, ?_⟩
      have hblen : (addBonusDie s t roll).bonusDice.length ≤ 3 := by
        have h1 : (addBonusDie s t roll).bonusDice.length =
            (addBonusDie s t roll).pressedTypes.length := by
          simp [BladesPopup.pressedTypes]
        rw [h1]
        exact nodup_bonusType_length_le _ hnodup
      have horig : (addBonusDie s t roll).originalDice = s.originalDice := by
        unfold addBonusDie
        split <;> rfl
      have hfm : ((addBonusDie s t roll).bonusDice.filterMap Prod.snd).length ≤
          (addBonusDie s t roll).bonusDice.length := List.length_filterMap_le _ _
      simp only [BladesPopup.getAllDice, List.length_append, horig]
      omega

/-- Witness for C3: a zero-dice popup with pool [6, 2]; the first press
(Assist) flips the mode without adding a die, the second press (Push, die
4) appends exactly that die; the two-press state is reachable and within
the 3-die bound. -/
theorem addBonusDie_state_machine_witness :
    ((initPopup 0 [6, 2]).startedAsZeroDice = true ∧
      (initPopup 0 [6, 2]).modeFlipped = false) ∧
    (addBonusDie (initPopup 0 [6, 2]) .assist 5).getAllDice =
      (initPopup 0 [6, 2]).getAllDice ∧
    (addBonusDie (initPopup 0 [6, 2]) .assist 5).isZeroDiceMode = false ∧
    (addBonusDie (addBonusDie (initPopup 0 [6, 2]) .assist 5) .push 4).getAllDice =
      (addBonusDie (initPopup 0 [6, 2]) .assist 5).getAllDice ++ [4] ∧
    ((addBonusDie (addBonusDie (initPopup 0 [6, 2]) .assist 5) .push 4).pressedTypes.Nodup ∧
      (addBonusDie (addBonusDie (initPopup 0 [6, 2]) .assist 5) .push 4).getAllDice.length ≤
        (addBonusDie (addBonusDie (initPopup 0 [6, 2]) .assist 5) .push 4).originalDice.length + 3) :=
  ⟨⟨by decide, by decide⟩,
   (addBonusDie_state_machine.1 (initPopup 0 [6, 2]) .assist 5 (by decide)
      (by decide)).1,
   (addBonusDie_state_machine.1 (initPopup 0 [6, 2]) .assist 5 (by decide)
      (by decide)).2.2.1,
   (addBonusDie_state_machine.2.1 (addBonusDie (initPopup 0 [6, 2]) .assist 5)
      .push 4 (Or.inr (by decide))).1,
   addBonusDie_state_machine.2.2 _
     (PopupReachable.press _ .push 4
       (PopupReachable.press _ .assist 5 (PopupReachable.init 0 [6, 2])
         (by decide))
       (by decide))⟩

theorem jsOr_empty (s : String) : jsOr s "" = s := by
  by_cases h : s = "" <;> simp [jsOr, h]

theorem jsMaxNat_ge (l : List Nat) : ∀ x ∈ l, x ≤ jsMaxNat l := by
  intro x hx
  match l, hx with
  | d :: ds, hx =>
    rcases List.mem_cons.mp hx with rfl | hx
    · exact (foldl_max_ge ds x).1
    · exact (foldl_max_ge ds d).2 x hx

theorem filter_range_contains_eq (l : List Nat) (n : Nat)
    (hs : List.Sorted (· < ·) l) (hb : ∀ x ∈ l, x < n) :
    (List.range n).filter (fun i => l.contains i) = l := by
  haveI : IsAntisymm Nat (· < ·) := ⟨fun a b h1 h2 => absurd h2 (lt_asymm h1)⟩
  have hnodup1 : ((List.range n).filter (fun i => l.contains i)).Nodup :=
    (List.nodup_range n).filter _
  have hnodup2 : l.Nodup := hs.nodup
  have hperm : List.Perm ((List.range n).filter (fun i => l.contains i)) l := by
    rw [List.perm_ext_iff_of_nodup hnodup1 hnodup2]
    intro a
    simp only [List.mem_filter, List.mem_range]
    constructor
    · rintro ⟨h1, h2⟩
      simpa using h2
    · intro h
      exact ⟨hb a h, by simpa using h⟩
  exact List.eq_of_perm_of_sorted hperm ((List.sorted_lt_range n).filter _) hs

theorem stress_roundtrip (l : List Nat) (n : Nat)
    (hs : List.Sorted (· < ·) l) (hb : ∀ x ∈ l, x < n) :
    (List.range ((List.range n).map (fun i => l.contains i)).length).filter
      (fun i => ((List.range n).map (fun i => l.contains i)).getD i false) = l := by
  have hlen : ((List.range n).map (fun i => l.contains i)).length = n := by simp
  rw [hlen]
  have hcongr : (List.range n).filter
      (fun i => ((List.range n).map (fun i => l.contains i)).getD i false) =
      (List.range n).filter (fun i => l.contains i) := by
    apply List.filter_congr
    intro i hi
    rw [getD_map_range]
    simp [List.mem_range.mp hi]
  rw [hcongr]
  exact filter_range_contains_eq l n hs hb

theorem stress_bound (l : List Nat) :
    ∀ x ∈ l, x < max (if 0 < l.length then jsMaxNat l + 1 else 0) 6 := by
  intro x hx
  have hne : 0 < l.length := List.length_pos.mpr (List.ne_nil_of_mem hx)
  have := jsMaxNat_ge l x hx
  simp only [hne, if_true]
  omega

/-- C10: `convertFateToGroupFormat` emits each stress track as a boolean
array of length `max(highest filled index + 1, 6)` whose i-th entry is true
exactly when i appears in the single-format filled-index list; with no
stress recorded the arrays are 6 entries of false. -/
theorem convertFateToGroup_stress_arrays (now : Nat) (D : FateSingleDoc) :
    (D.stressPhysical ≠ [] →
      (convertFateToGroupFormat now D).physicalStress.length =
        max (jsMaxNat D.stressPhysical + 1) 6 ∧
      jsMaxNat D.stressPhysical ∈ D.stressPhysical ∧
      (∀ x ∈ D.stressPhysical, x ≤ jsMaxNat D.stressPhysical)) ∧
    (D.stressPhysical = [] →
      (convertFateToGroupFormat now D).physicalStress.length = 6 ∧
      ∀ b ∈ (convertFateToGroupFormat now D).physicalStress, b = false) ∧
    (∀ i, (convertFateToGroupFormat now D).physicalStress.getD i false = true ↔
      (i < (convertFateToGroupFormat now D).physicalStress.length ∧
        i ∈ D.stressPhysical)) ∧
    (D.stressMental ≠ [] →
      (convertFateToGroupFormat now D).mentalStress.length =
        max (jsMaxNat D.stressMental + 1) 6) ∧
    (D.stressMental = [] →
      (convertFateToGroupFormat now D).mentalStress.length = 6 ∧
      ∀ b ∈ (convertFateToGroupFormat now D).mentalStress, b = false) ∧
    (∀ i, (convertFateToGroupFormat now D).mentalStress.getD i false = true ↔
      (i < (convertFateToGroupFormat now D).mentalStress.length ∧
        i ∈ D.stressMental)) := by
  refine ⟨?_, ?_, ?_, ?_, ?_, ?_⟩
  · intro hne
    have hpos : 0 < D.stressPhysical.length := List.length_pos.mpr hne
    refine ⟨?_, ?_, jsMaxNat_ge D.stressPhysical⟩
    · simp [convertFateToGroupFormat, hpos]
    · match D.stressPhysical, hne with
      | d :: ds, _ =>
        rcases foldl_max_mem ds d with h | h
        · rw [jsMaxNat, h]; exact List.mem_cons_self d ds
        · rw [jsMaxNat]; exact List.mem_cons_of_mem d h
  · intro hnil
    constructor
    · simp [convertFateToGroupFormat, hnil]
    · intro b hb
      simp only [convertFateToGroupFormat, hnil] at hb
      simp only [List.mem_map] at hb
      obtain ⟨i, _, hi⟩ := hb
      simp at hi
      exact hi
  · intro i
    have hlen : (convertFateToGroupFormat now D).physicalStress.length =
        max (if 0 < D.stressPhysical.length then jsMaxNat D.stressPhysical + 1 else 0) 6 := by
      simp [convertFateToGroupFormat]
    simp only [convertFateToGroupFormat]
    rw [getD_map_range]
    by_cases h : i < max (if 0 < D.stressPhysical.length then
        jsMaxNat D.stressPhysical + 1 else 0) 6 <;>
      simp [h, hlen, convertFateToGroupFormat]
  · intro hne
    have hpos : 0 < D.stressMental.length := List.length_pos.mpr hne
    simp [convertFateToGroupFormat, hpos]
  · intro hnil
    constructor
    · simp [convertFateToGroupFormat, hnil]
    · intro b hb
      simp only [convertFateToGroupFormat, hnil] at hb
      simp only [List.mem_map] at hb
      obtain ⟨i, _, hi⟩ := hb
      simp at hi
      exact hi
  · intro i
    have hlen : (convertFateToGroupFormat now D).mentalStress.length =
        max (if 0 < D.stressMental.length then jsMaxNat D.stressMental + 1 else 0) 6 := by
      simp [convertFateToGroupFormat]
    simp only [convertFateToGroupFormat]
    rw [getD_map_range]
    by_cases h : i < max (if 0 < D.stressMental.length then
        jsMaxNat D.stressMental + 1 else 0) 6 <;>
      simp [h, hlen, convertFateToGroupFormat]

/-- C1 counterexample: single→group→single is not the identity: the
mild-physical consequence text is dropped (the group format keeps only
mild/moderate/severe and the reverse conversion writes empty strings into
the mild-physical and mild-mental slots). -/
theorem convertRoundTrip_cex :
    convertGroupToFateFormat (convertFateToGroupFormat 0 cexSingleDoc) ≠
      cexSingleDoc ∧
    (convertGroupToFateFormat
        (convertFateToGroupFormat 0 cexSingleDoc)).consequences.mildPhysical = "" ∧
    cexSingleDoc.consequences.mildPhysical = "sprained ankle" := by
  refine ⟨?_, by decide, by decide⟩
  decide

/-- C1 amended: for every document produced by the single sheet whose
mild-physical and mild-mental consequence slots are empty (the stress index
lists produced by `getFilledIndices` are strictly increasing), the
single→group→single round trip reproduces the document exactly — including
approaches, extras, notes, fateRefresh, altRules and full stunt
descriptions; documents with text in those two extra consequence slots lose
exactly that text. -/
theorem convertRoundTrip_amended (now : Nat) (D : FateSingleDoc)
    (hsp : List.Sorted (· < ·) D.stressPhysical)
    (hsm : List.Sorted (· < ·) D.stressMental)
    (hcp : D.consequences.mildPhysical = "")
    (hcm : D.consequences.mildMental = "") :
    convertGroupToFateFormat (convertFateToGroupFormat now D) = D := by
  obtain ⟨nm, hc, tr, a3, a4, a5, nt, fc, fr, sk, ap, st, ex, sp, sm, cons, alt⟩ := D
  obtain ⟨cm, cmo, cs, cmp, cmm⟩ := cons
  dsimp only at hcp hcm hsp hsm
  subst hcp
  subst hcm
  have h1 := stress_roundtrip sp _ hsp (stress_bound sp)
  have h2 := stress_roundtrip sm _ hsm (stress_bound sm)
  simp [convertFateToGroupFormat, convertGroupToFateFormat, jsOr_empty]
  exact ⟨by simpa using h1, by simpa using h2⟩

/-- Witness for C1 at a concrete document with every preserved field
populated. -/
theorem convertRoundTrip_amended_witness :
    (List.Sorted (· < ·) (witnessSingleDoc.stressPhysical) ∧
      List.Sorted (· < ·) (witnessSingleDoc.stressMental) ∧
      witnessSingleDoc.consequences.mildPhysical = "" ∧
      witnessSingleDoc.consequences.mildMental = "") ∧
    convertGroupToFateFormat (convertFateToGroupFormat 7 witnessSingleDoc) =
      witnessSingleDoc :=
  ⟨⟨by decide, by decide, by decide, by decide⟩,
   convertRoundTrip_amended 7 witnessSingleDoc (by decide) (by decide)
     (by decide) (by decide)⟩

/-- C8: the import validator rejects null and non-object payloads with
"Invalid data format", arrays with the distinguishable
"Expected object, got array", and an object missing a required field with
"Missing required field: f" naming the first missing field; objects with
all required fields present are valid. -/
theorem validateImportData_spec :
    validateImportData .null [] =
      { valid := false, error := some "Invalid data format" } ∧
    (∀ s, validateImportData (.str s) [] =
      { valid := false, error := some "Invalid data format" }) ∧
    (∀ n, validateImportData (.num n) [] =
      { valid := false, error := some "Invalid data format" }) ∧
    (∀ b, validateImportData (.bool b) [] =
      { valid := false, error := some "Invalid data format" }) ∧
    (∀ items req, validateImportData (.arr items) req =
      { valid := false, error := some "Expected object, got array" }) ∧
    (∀ fields req f,
      req.find? (fun g => !((fields.map Prod.fst).contains g)) = some f →
        validateImportData (.obj fields) req =
          { valid := false, error := some ("Missing required field: " ++ f) }) ∧
    (∀ fields req, (∀ f ∈ req, f ∈ fields.map Prod.fst) →
        validateImportData (.obj fields) req =
          { valid := true, error := none }) := by
  refine ⟨rfl, fun s => rfl, fun n => rfl, fun b => rfl, fun items req => rfl,
    ?_, ?_⟩
  · intro fields req f h
    have h2 : req.find? (fun g => !(decide (g ∈ fields.map Prod.fst))) = some f := by
      simpa using h
    simp [validateImportData, h2]
  · intro fields req h
    have hnone : req.find? (fun g => !(decide (g ∈ fields.map Prod.fst))) = none := by
      rw [List.find?_eq_none]
      intro x hx
      simp [h x hx]
    simp [validateImportData, hnone]

/-- Witness for C8 at the concrete payloads of shared.test.js. -/
theorem validateImportData_spec_witness :
    validateImportData .null [] =
      { valid := false, error := some "Invalid data format" } ∧
    validateImportData (.arr [.num 1, .num 2, .num 3]) [] =
      { valid := false, error := some "Expected object, got array" } ∧
    validateImportData (.obj [("name", .str "Test")]) ["name", "version"] =
      { valid := false, error := some "Missing required field: version" } ∧
    validateImportData (.obj [("name", .str "Test"), ("version", .num 1)])
        ["name", "version"] = { valid := true, error := none } :=
  ⟨validateImportData_spec.1,
   validateImportData_spec.2.2.2.2.1 [.num 1, .num 2, .num 3] [],
   validateImportData_spec.2.2.2.2.2.1 [("name", .str "Test")]
     ["name", "version"] "version" (by decide),
   validateImportData_spec.2.2.2.2.2.2 [("name", .str "Test"), ("version", .num 1)]
     ["name", "version"] (by decide)⟩

/-- Witness for C10 at a concrete document with physical stress [0, 2] and
no mental stress. -/
theorem convertFateToGroup_stress_arrays_witness :
    (c10SingleDoc.stressPhysical ≠ [] ∧ c10SingleDoc.stressMental = []) ∧
    (convertFateToGroupFormat 0 c10SingleDoc).physicalStress.length =
      max (jsMaxNat c10SingleDoc.stressPhysical + 1) 6 ∧
    ((convertFateToGroupFormat 0 c10SingleDoc).physicalStress.getD 2 false = true ↔
      (2 < (convertFateToGroupFormat 0 c10SingleDoc).physicalStress.length ∧
        2 ∈ c10SingleDoc.stressPhysical)) ∧
    (convertFateToGroupFormat 0 c10SingleDoc).mentalStress.length = 6 ∧
    (∀ b ∈ (convertFateToGroupFormat 0 c10SingleDoc).mentalStress, b = false) :=
  ⟨⟨by decide, by decide⟩,
   ((convertFateToGroup_stress_arrays 0 c10SingleDoc).1 (by decide)).1,
   (convertFateToGroup_stress_arrays 0 c10SingleDoc).2.2.1 2,
   ((convertFateToGroup_stress_arrays 0 c10SingleDoc).2.2.2.2.1 (by decide)).1,
   ((convertFateToGroup_stress_arrays 0 c10SingleDoc).2.2.2.2.1 (by decide)).2⟩

end Gaming
